import Mathlib

/-!
Verification development for the Share-2-Archive-Today Python download core
(app/src/main/python): the format-catalog normalizer, the video/audio
download orchestrators, the result classifier and the audio container
validator, shallowly embedded in Lean.

Modelling conventions:
* Python values that the code treats as "string or None" are `PyVal`
  (`.str s` or `.null`); a missing dictionary key is `Option.none` on the
  corresponding field, so that `dict.get(k, default)` is `Option.getD`.
* Numeric catalog fields follow the `fmt.get(key, 0) or 0` idiom of the
  source; they are embedded as `Option (Option Int)` (absent / null / value).
* The filesystem is a partial map from path to byte content
  (`FS := String → Option (List Nat)`); `os.path.getsize` is the length of
  the content, `os.rename` is `fsRename`, and a read of a missing file
  models the raised-and-caught `OSError` branches of the source.
* The yt-dlp backend is an oracle `Nat → ExtractRes` giving the result of
  the k-th `extract_info` invocation of a call (raise / unusable info /
  a non-empty `requested_downloads` list); `RunSt` counts invocations,
  download attempts and cancellation checks so that the temporal claims
  (attempt counts, zero-invocation cancellation) are statable.
-/

/-- A Python value as it appears in the loosely typed catalog dictionaries:
either a string or `None`. -/
inductive PyVal where
  | str (s : String)
  | null
deriving DecidableEq, Repr

/-- Truthiness of a `PyVal` under Python semantics: `None` and the empty
string are falsy. -/
def PyVal.truthy : PyVal → Bool
  | .str s => !(s = "")
  | .null => false

/-- Rendering used by Python `str()` / f-strings on these values. -/
def PyVal.render : PyVal → String
  | .str s => s
  | .null => "None"

/-- Membership test `v in ('none', None, 'null')`, the sentinel tuple used
throughout the source for an absent codec. -/
def pyNoneish (v : PyVal) : Bool :=
  v == .str "none" || v == .null || v == .str "null"

/-- Python `str.lower` restricted to ASCII, which is all the source compares. -/
def pyLowerChar (c : Char) : Char :=
  if 'A' ≤ c && c ≤ 'Z' then Char.ofNat (c.toNat + 32) else c

/-- Lower-case a string (`s.lower()` in the source). -/
def strLower (s : String) : String := ⟨s.data.map pyLowerChar⟩

/-- Python substring containment `p in l` on character lists. -/
def listHasSub (p : List Char) : List Char → Bool
  | [] => decide (p = [])
  | c :: t => p.isPrefixOf (c :: t) || listHasSub p t

/-- Python substring containment `pat in s` on strings. -/
def hasSubstr (s pat : String) : Bool := listHasSub pat.data s.data

/-- Helper for `os.path.splitext`, on the reversed character list of a path:
after the candidate last dot, the basename must contain a character other
than `'.'` before the directory separator for an extension to exist
(CPython's genericpath `_splitext` rule). -/
def extNameOk : List Char → Bool
  | [] => false
  | c :: rest => if c = '/' then false else if c = '.' then extNameOk rest else true

/-- Helper for `os.path.splitext`: length of the extension (dot included)
computed on the reversed character list of the path, `none` when the path
has no extension. -/
def extLen : List Char → Option Nat
  | [] => none
  | c :: rest =>
    if c = '/' then none
    else if c = '.' then (if extNameOk rest then some 1 else none)
    else (extLen rest).map (· + 1)

/-- Model of `os.path.splitext(p)`: split a path into root and extension. -/
def pySplitExt (p : String) : String × String :=
  match extLen p.data.reverse with
  | none => (p, "")
  | some k => (⟨(p.data.reverse.drop k).reverse⟩, ⟨(p.data.reverse.take k).reverse⟩)

/-- The filesystem model: a partial map from path to byte content. -/
def FS : Type := String → Option (List Nat)

/-- Model of `os.rename(src, dst)` on the filesystem model. -/
def fsRename (fs : FS) (src dst : String) : FS :=
  fun q => if q = dst then fs src else if q = src then none else fs q

/-- A filesystem holding exactly one file. -/
def singleFs (p : String) (c : List Nat) : FS :=
  fun q => if q = p then some c else none

/-- One of the three MP4/M4A container signatures the validator accepts:
a 4-byte box size `n` followed by the ASCII bytes of `ftyp`. -/
def ftypSig (n : Nat) : List Nat := [0, 0, 0, n, 102, 116, 121, 112]

/-- The `ftyp` test of `AudioValidator._validate_m4a_container` on the first
8 bytes of a file (box sizes 0x18, 0x20 and 0x1c). -/
def hasFtypHeader (header : List Nat) : Bool :=
  (ftypSig 24).isPrefixOf header || (ftypSig 32).isPrefixOf header ||
    (ftypSig 28).isPrefixOf header

/-- The ADTS/AAC sync test of `AudioValidator._repair_audio_container`:
the content begins with bytes `0xFF 0xF1` or `0xFF 0xF9`. -/
def hasAdtsSync (content : List Nat) : Bool :=
  [255, 241].isPrefixOf content || [255, 249].isPrefixOf content

/-- Embedding of `AudioValidator._wrap_aac_in_m4a` (and the tail of the downloader's
inline `_repair_audio_container`): rename the file to the `.m4a`
extension next to its split root. -/
def wrapAacInM4a (fs : FS) (p : String) : FS × String :=
  let rp := (pySplitExt p).1 ++ ".m4a"
  (fsRename fs p rp, rp)

/-- Embedding of `AudioValidator._repair_audio_container` (identical logic is inlined in
`VideoDownloader._repair_audio_container`): read the whole file; if it
starts with an ADTS sync pattern, relabel it as `.m4a`, otherwise return
the original path; a failed read is caught and returns the original. -/
def repairAudioContainer (fs : FS) (p : String) : FS × String :=
  match fs p with
  | none => (fs, p)
  | some content =>
    if hasAdtsSync content then wrapAacInM4a fs p else (fs, p)

/-- Embedding of `AudioValidator._validate_m4a_container`: accept the file when its first
8 bytes carry a known `ftyp` signature, otherwise attempt repair; a failed
read is caught and returns the original path. -/
def validateM4aContainer (fs : FS) (p : String) : FS × String :=
  match fs p with
  | none => (fs, p)
  | some content =>
    if hasFtypHeader (content.take 8) then (fs, p)
    else repairAudioContainer fs p

/-- Embedding of `AudioValidator.validate_audio_file` (the same logic is inlined as
`VideoDownloader._validate_audio_file`): files under 1KB and files whose
extension is not `.m4a`/`.mp4` are returned unchanged; otherwise the
container is validated and possibly repaired. A failed `os.path.getsize`
(missing file) is caught and returns the original path. -/
def validateAudioFile (fs : FS) (p : String) : FS × String :=
  match fs p with
  | none => (fs, p)
  | some content =>
    if content.length < 1024 then (fs, p)
    else
      let ext := strLower (pySplitExt p).2
      if ext = ".m4a" || ext = ".mp4" then validateM4aContainer fs p
      else (fs, p)

/-- One raw stream descriptor of the extractor catalog, with the fields the
normalizer reads. A field is `none` when the key is absent; codec and
resolution fields are nullable (`PyVal`), numeric fields follow the
`dict.get(key, 0) or 0` idiom (`Option (Option Int)`: absent / null /
value), and identifier, extension, protocol, note and url are the string
fields of the spec's StreamDescriptor data model. -/
structure RawFormat where
  format_id : Option String := none
  ext : Option String := none
  vcodec : Option PyVal := none
  acodec : Option PyVal := none
  height : Option (Option Int) := none
  width : Option (Option Int) := none
  fps : Option (Option Int) := none
  tbr : Option (Option Int) := none
  filesize : Option (Option Int) := none
  filesize_approx : Option (Option Int) := none
  protocol : Option String := none
  format_note : Option String := none
  resolution : Option PyVal := none
  url : Option String := none
deriving DecidableEq, Repr

/-- The idiom `fmt.get(key, 0) or 0` on a numeric field. -/
def getNum (v : Option (Option Int)) : Int :=
  match v with
  | some (some n) => n
  | _ => 0

/-- The idiom `fmt.get('filesize') or fmt.get('filesize_approx', 0) or 0`. -/
def pyFilesize (f : RawFormat) : Int :=
  match f.filesize with
  | some (some n) => if n = 0 then getNum f.filesize_approx else n
  | _ => getNum f.filesize_approx

/-- The reads `fmt.get('vcodec', 'none')` / `fmt.get('acodec', 'none')`. -/
def getCodec (v : Option PyVal) : PyVal := v.getD (.str "none")

/-- One normalized format entry (the dictionaries built by
`_process_format` and by the DASH pairing of `_extract_format_info`).
`video_format_id`, `audio_format_id`, `width` and `is_dash_paired` are
`none` when the key is absent (non-paired entries). -/
structure NormalizedFormat where
  format_id : String
  ext : String
  resolution : PyVal
  height : Int
  quality_label : String
  filesize : Int
  vcodec : PyVal
  acodec : PyVal
  has_audio : Bool
  has_video : Bool
  fps : Int
  format_note : String
  tbr : Int
  url : String
  video_format_id : Option (Option String) := none
  audio_format_id : Option (Option String) := none
  width : Option Int := none
  is_dash_paired : Option Bool := none
deriving DecidableEq, Repr

/-- The known video container extensions of the remediation heuristic. -/
def videoExtensions : List String :=
  ["mp4", "webm", "mkv", "avi", "mov", "flv", "m4v", "mpg", "mpeg", "wmv"]

/-- The known audio extensions of the remediation heuristic. -/
def audioExtensions : List String :=
  ["mp3", "aac", "m4a", "wav", "ogg", "opus", "flac"]

/-- Flag resolution of `_process_format`: the codec-based video/audio
presence booleans, remediated by the extension heuristic (a video
extension with both codecs absent means both present; an audio extension
with audio absent means audio present). -/
def resolveFlags (fmt : RawFormat) : Bool × Bool :=
  let vcodec := getCodec fmt.vcodec
  let acodec := getCodec fmt.acodec
  let ext := fmt.ext.getD ""
  let has_video0 := !pyNoneish vcodec && !(vcodec == .str "")
  let has_audio0 := !pyNoneish acodec && !(acodec == .str "")
  if ext ∈ videoExtensions && !has_video0 && !has_audio0 then (true, true)
  else if ext ∈ audioExtensions && !has_audio0 then (has_video0, true)
  else (has_video0, has_audio0)

/-- Entry construction of `_process_format` for a kept descriptor with
resolved flags: resolution string, sort height and quality label per the
height/width, unknown-resolution and audio-only branches of the source. -/
def mkProcessedEntry (fmt : RawFormat) (hv ha : Bool) : NormalizedFormat :=
  let vcodec := getCodec fmt.vcodec
  let acodec := getCodec fmt.acodec
  let height := getNum fmt.height
  let width := getNum fmt.width
  let step1 : PyVal × Int × String :=
    if height ≠ 0 && width ≠ 0 then
      (.str (toString width ++ "x" ++ toString height), height, toString height ++ "p")
    else
      let res0 := fmt.resolution.getD (.str "unknown")
      if res0 == .str "unknown" || res0 == .null || res0 == .str "null" then
        if hv then (res0, 9999, "Original Quality") else (res0, 0, "Audio Only")
      else (res0, height, res0.render)
  let step2 : PyVal × Int × String :=
    if !hv && ha then (.str "Audio", 0, "Audio Only") else step1
  { format_id := fmt.format_id.getD ""
    ext := fmt.ext.getD ""
    resolution := step2.1
    height := step2.2.1
    quality_label := step2.2.2
    filesize := pyFilesize fmt
    vcodec := if vcodec.truthy then .str vcodec.render else .str "none"
    acodec := if acodec.truthy then .str acodec.render else .str "none"
    has_audio := ha
    has_video := hv
    fps := getNum fmt.fps
    format_note := fmt.format_note.getD ""
    tbr := getNum fmt.tbr
    url := fmt.url.getD "" }

/-- Embedding of `FormatProcessor._process_format`, byte-identical in logic to
`VideoDownloader._process_format`: resolve the flags with the remediation
heuristic, drop descriptors that carry neither video nor audio, and build
the normalized entry for the rest. -/
def processFormat (fmt : RawFormat) : Option NormalizedFormat :=
  if !(resolveFlags fmt).1 && !(resolveFlags fmt).2 then none
  else some (mkProcessedEntry fmt (resolveFlags fmt).1 (resolveFlags fmt).2)

/-- Sort key of the final `format_list.sort(key=lambda x: (x['has_video'],
x['height']), reverse=True)`. -/
def entryKey (e : NormalizedFormat) : Nat × Int :=
  (if e.has_video then 1 else 0, e.height)

/-- The comparison under which the stable descending sort of the source is a
stable ascending merge sort: `a` may precede `b` iff `b`'s key is
lexicographically at most `a`'s. -/
def fmtSortLe (a b : NormalizedFormat) : Bool :=
  decide ((entryKey b).1 < (entryKey a).1 ∨
    ((entryKey b).1 = (entryKey a).1 ∧ (entryKey b).2 ≤ (entryKey a).2))

/-- Embedding of `FormatProcessor.extract_format_info` before its final sort: map
`_process_format` over the catalog, dropping the `None` results. -/
def preListProcessor (formats : List RawFormat) : List NormalizedFormat :=
  formats.filterMap processFormat

/-- Embedding of `FormatProcessor.extract_format_info`: normalize every descriptor and
sort descending by `(has_video, height)` (Python's `list.sort` is stable). -/
def extractFormatInfoProcessor (formats : List RawFormat) : List NormalizedFormat :=
  (preListProcessor formats).mergeSort fmtSortLe

/-- The DASH-audio classification of `VideoDownloader._extract_format_info`
(lines 216-218): audio present, video absent, and `'dash'` occurring in the
lower-cased `format_note` or `format_id`. The delivery protocol is not
consulted. -/
def isDashAudioStream (fmt : RawFormat) : Bool :=
  let vcodec := getCodec fmt.vcodec
  let acodec := getCodec fmt.acodec
  (!pyNoneish acodec && !(acodec == .str "")) && pyNoneish vcodec &&
    (hasSubstr (strLower (fmt.format_note.getD "")) "dash" ||
      hasSubstr (strLower (fmt.format_id.getD "")) "dash")

/-- The video-only classification of `_extract_format_info` (lines 223-224). -/
def isVideoOnlyStream (fmt : RawFormat) : Bool :=
  let vcodec := getCodec fmt.vcodec
  let acodec := getCodec fmt.acodec
  (!pyNoneish vcodec && !(vcodec == .str "")) && pyNoneish acodec

/-- The complete-format classification of `_extract_format_info`
(lines 229-230). -/
def isCompleteStream (fmt : RawFormat) : Bool :=
  let vcodec := getCodec fmt.vcodec
  let acodec := getCodec fmt.acodec
  (!pyNoneish vcodec && !(vcodec == .str "")) &&
    (!pyNoneish acodec && !(acodec == .str ""))

/-- First pass of `_extract_format_info`: split the catalog into the last
seen DASH audio stream, the video-only streams and the complete streams
(the `if/elif` chain keeps each descriptor in at most one class). -/
def classifyFormats (formats : List RawFormat) :
    Option RawFormat × List RawFormat × List RawFormat :=
  formats.foldl
    (fun acc fmt =>
      if isDashAudioStream fmt then (some fmt, acc.2.1, acc.2.2)
      else if isVideoOnlyStream fmt then (acc.1, acc.2.1 ++ [fmt], acc.2.2)
      else if isCompleteStream fmt then (acc.1, acc.2.1, acc.2.2 ++ [fmt])
      else acc)
    (none, [], [])

/-- Grouping of the video-only streams by `fmt.get('height', 0) or 0`,
keeping Python's dict insertion order; each group is non-empty by
construction (first member plus the rest). -/
def addToGroups (h : Int) (f : RawFormat) :
    List (Int × RawFormat × List RawFormat) → List (Int × RawFormat × List RawFormat)
  | [] => [(h, f, [])]
  | (k, g0, gs) :: rest =>
    if k = h then (k, g0, gs ++ [f]) :: rest else (k, g0, gs) :: addToGroups h f rest

/-- The `resolution_groups` dictionary of `_extract_format_info`. -/
def resolutionGroups (l : List RawFormat) : List (Int × RawFormat × List RawFormat) :=
  l.foldl (fun gs f => addToGroups (getNum f.height) f gs) []

/-- Per resolution group, `video_formats.sort(key=..., reverse=True)`
followed by taking the best bitrate: the earliest stream of maximal `tbr`. -/
def bestByTbr (g0 : RawFormat) (gs : List RawFormat) : RawFormat :=
  match (g0 :: gs).mergeSort (fun a b => getNum b.tbr ≤ getNum a.tbr) with
  | [] => g0
  | b :: _ => b

/-- The synthesized paired format of `_extract_format_info`
(lines 262-282). -/
def mkPaired (h : Int) (best dash : RawFormat) : NormalizedFormat :=
  { format_id := best.format_id.getD "None" ++ "+" ++ dash.format_id.getD "None"
    video_format_id := some best.format_id
    audio_format_id := some dash.format_id
    ext := best.ext.getD "mp4"
    resolution := best.resolution.getD (.str "")
    height := h
    width := some (getNum best.width)
    quality_label := toString h ++ "p"
    filesize := pyFilesize best + pyFilesize dash
    vcodec := getCodec best.vcodec
    acodec := getCodec dash.acodec
    has_audio := true
    has_video := true
    fps := getNum best.fps
    format_note := "DASH " ++ toString h ++ "p (Video+Audio)"
    tbr := getNum best.tbr + getNum dash.tbr
    url := best.url.getD ""
    is_dash_paired := some true }

/-- The paired formats synthesized by `_extract_format_info`: one per
distinct height of the video-only streams, heights in descending order,
each pairing the best-bitrate video stream with the single DASH audio
stream. Empty when there is no DASH audio stream or no video-only stream. -/
def pairedFormats (dashAudio : Option RawFormat) (videoOnly : List RawFormat) :
    List NormalizedFormat :=
  match dashAudio with
  | none => []
  | some dash =>
    if videoOnly = [] then []
    else
      ((resolutionGroups videoOnly).mergeSort (fun a b => b.1 ≤ a.1)).map
        (fun g => mkPaired g.1 (bestByTbr g.2.1 g.2.2) dash)

/-- Embedding of `VideoDownloader._extract_format_info` before its final sort: complete
formats through `_process_format`, then the synthesized DASH pairs, then
the remaining descriptors (not complete, not video-only, not the DASH
audio stream) through `_process_format`. -/
def preListDownloader (formats : List RawFormat) : List NormalizedFormat :=
  let cls := classifyFormats formats
  let dashAudio := cls.1
  let videoOnly := cls.2.1
  let complete := cls.2.2
  let remaining := formats.filter
    (fun f => !(decide (f ∈ complete)) && !(decide (f ∈ videoOnly)) &&
      (match dashAudio with
       | some d => !(decide (f = d))
       | none => true))
  complete.filterMap processFormat ++ pairedFormats dashAudio videoOnly ++
    remaining.filterMap processFormat

/-- Embedding of `VideoDownloader._extract_format_info`: classification, DASH pairing,
remaining-format processing and the final stable descending sort by
`(has_video, height)`. -/
def extractFormatInfoDownloader (formats : List RawFormat) : List NormalizedFormat :=
  (preListDownloader formats).mergeSort fmtSortLe

/-- One entry of `info['requested_downloads']` as the orchestrators read it:
reported file path, whether the path exists on disk, the reported codecs,
and the downloaded byte content (whose length is `os.path.getsize`). -/
structure DlFile where
  filepath : Option String := none
  fileOnDisk : Bool := true
  vcodec : Option PyVal := none
  acodec : Option PyVal := none
  content : List Nat := []
deriving DecidableEq, Repr

/-- Result of one `yt_dlp.YoutubeDL(...).extract_info` invocation:
an exception with its message, an unusable info dict (`None`, or no
non-empty `requested_downloads`), or a non-empty downloads list. -/
inductive ExtractRes where
  | raised (msg : String)
  | noInfo
  | got (f : DlFile) (rest : List DlFile)
deriving DecidableEq, Repr

/-- Counters of one orchestrator call: `n` backend invocations performed
(also the index of the next one in the oracle), `dl` download-enabled
attempts performed, `c` cancellation-flag checks performed (also the index
of the next one in the cancellation schedule). -/
structure RunSt where
  n : Nat
  dl : Nat
  c : Nat
deriving DecidableEq, Repr

/-- The structured outcome dictionary of the download operations.
`needs_extraction` and `needs_audio_extraction` are `none` when the key is
absent from the dictionary (several inline result dicts of
`download_video` omit them). -/
structure Outcome where
  success : Bool
  error : Option String
  file_path : Option String
  video_path : Option String
  audio_path : Option String
  separate_av : Bool
  needs_extraction : Option Bool := none
  needs_audio_extraction : Option Bool := none
  file_size : Int
deriving DecidableEq, Repr

/-- The inline cancellation dict of `download_video` (lines 432-440); it has
no `needs_extraction` key. -/
def cancelDictVideo : Outcome :=
  { success := false, error := some "Download cancelled by user",
    file_path := none, video_path := none, audio_path := none,
    separate_av := false, file_size := 0 }

/-- Embedding of `VideoDownloader._cancelled_result` (lines 1114-1125). -/
def cancelledResult : Outcome :=
  { success := false, error := some "Download cancelled by user",
    file_path := none, video_path := none, audio_path := none,
    separate_av := false, needs_extraction := some false, file_size := 0 }

/-- The quality map of `VideoDownloader._get_quality_based_format`. -/
def qualityMapVideo : List (String × String) :=
  [("2160p", "best[height<=2160]"), ("1440p", "best[height<=1440]"),
   ("1080p", "best[height<=1080]"), ("720p", "best[height<=720]"),
   ("480p", "best[height<=480]"), ("360p", "best[height<=360]"),
   ("worst", "worst"), ("best", "best"),
   ("audio_mp3", "bestaudio[ext=mp3]/bestaudio"),
   ("audio_aac", "bestaudio[ext=m4a]/bestaudio[ext=aac]/bestaudio")]

/-- Embedding of `VideoDownloader._get_quality_based_format`: map the quality token to a
selector expression, defaulting to `best` for unknown tokens. -/
def getQualityBasedFormat (quality : String) : String :=
  (qualityMapVideo.lookup quality).getD "best"

/-- The candidate strategy list of `download_video` (lines 421-426). -/
def videoStrategiesOf (quality : String) : List String :=
  [getQualityBasedFormat quality, "best", "bestvideo"]

/-- The audio selector list of `_download_separate_audio` (lines 600-608). -/
def sepAudioFormats : List String :=
  ["bestaudio",
   "bestaudio[ext=m4a]/bestaudio[ext=aac]/bestaudio[ext=mp3]/bestaudio",
   "bestaudio[protocol*=dash]/bestaudio",
   "bestaudio[protocol*=m3u8]/bestaudio",
   "bestaudio[ext=m4a]/bestaudio",
   "bestaudio[ext=aac]/bestaudio",
   "bestaudio[ext=mp3]/bestaudio"]

/-- Container extensions assumed to carry audio by the post-download
analysis of `download_video` (line 510). -/
def containerWithAudioExts : List String :=
  [".mp4", ".mkv", ".avi", ".mov", ".webm", ".flv"]

/-- Pure-audio extensions of the post-download analysis (line 514). -/
def pureAudioExts : List String := [".mp3", ".aac", ".m4a", ".wav", ".ogg"]

/-- Rendering `f"{x}"` of the Python `last_error` variable (`None` renders as
`"None"`). -/
def renderLastError (e : Option String) : String := e.getD "None"

/-- Embedding of `VideoDownloader._download_separate_audio` (lines 594-685): iterate the
audio selectors, checking the cancellation flag before each attempt; a
successful attempt returns the separate-AV outcome pairing the given video
file; exhaustion returns the structured failure carrying the last error. -/
def sepAudioLoop (B : Nat → ExtractRes) (cf : Nat → Bool) (videoPath : String)
    (videoSize : Int) : List String → Option String → RunSt → Outcome × RunSt
  | [], lastErr, st =>
    ({ success := false,
       error := some ("Failed to download separate audio stream. All strategies failed. Last error: "
         ++ renderLastError lastErr),
       file_path := none, video_path := none, audio_path := none,
       separate_av := false, file_size := 0 }, st)
  | _ :: rest, lastErr, st =>
    if cf st.c then (cancelledResult, { st with c := st.c + 1 })
    else
      let st1 : RunSt := { n := st.n + 1, dl := st.dl + 1, c := st.c + 1 }
      match B st.n with
      | .raised m => sepAudioLoop B cf videoPath videoSize rest (some m) st1
      | .noInfo => sepAudioLoop B cf videoPath videoSize rest lastErr st1
      | .got f _ =>
        match f.filepath with
        | some audioPath =>
          if f.fileOnDisk then
            ({ success := true, error := none, file_path := none,
               video_path := some videoPath, audio_path := some audioPath,
               separate_av := true,
               file_size := videoSize + (f.content.length : Int) }, st1)
          else sepAudioLoop B cf videoPath videoSize rest lastErr st1
        | none => sepAudioLoop B cf videoPath videoSize rest lastErr st1

/-- The post-download file analysis and dispatch of `download_video`
(lines 497-558): resolve audio/video presence from the reported codecs
with the container-extension fallback, then return the combined outcome,
fetch separate audio, or return the single-file outcome. -/
def analyzeVideoDownload (B : Nat → ExtractRes) (cf : Nat → Bool) (p : String)
    (f : DlFile) (st : RunSt) : Outcome × RunSt :=
  let fileExt := strLower (pySplitExt p).2
  let vc := getCodec f.vcodec
  let ac := getCodec f.acodec
  let containerWithAudio := decide (fileExt ∈ containerWithAudioExts)
  let hasAudio := !pyNoneish ac || containerWithAudio
  let hasVideo := !pyNoneish vc || !(decide (fileExt ∈ pureAudioExts))
  if hasVideo && !hasAudio then
    sepAudioLoop B cf p (f.content.length : Int) sepAudioFormats none st
  else
    ({ success := true, error := none, file_path := some p,
       video_path := none, audio_path := none, separate_av := false,
       file_size := (f.content.length : Int) }, st)

/-- The strategy loop of `VideoDownloader.download_video` (lines 430-576):
check the cancellation flag, perform the format-listing probe (its result
feeds only logging and its errors are caught), perform the download
attempt, and either classify a usable file or record the error and advance;
exhaustion returns the structured failure referencing the last error. -/
def videoLoop (B : Nat → ExtractRes) (cf : Nat → Bool) :
    List String → Option String → RunSt → Outcome × RunSt
  | [], lastErr, st =>
    ({ success := false,
       error := some ("All download strategies failed. Last error: " ++ renderLastError lastErr),
       file_path := none, video_path := none, audio_path := none,
       separate_av := false, file_size := 0 }, st)
  | _ :: rest, lastErr, st =>
    if cf st.c then (cancelDictVideo, { st with c := st.c + 1 })
    else
      let st1 : RunSt := { n := st.n + 1, dl := st.dl, c := st.c + 1 }
      let st2 : RunSt := { n := st1.n + 1, dl := st1.dl + 1, c := st1.c }
      match B st1.n with
      | .raised m => videoLoop B cf rest (some m) st2
      | .noInfo => videoLoop B cf rest lastErr st2
      | .got f _ =>
        match f.filepath with
        | some p =>
          if f.fileOnDisk then analyzeVideoDownload B cf p f st2
          else videoLoop B cf rest lastErr st2
        | none => videoLoop B cf rest lastErr st2

/-- Embedding of `VideoDownloader.download_video`: the flag set before the call is
discarded by the reset `self.cancelled = False` (line 402), then the three
candidate strategies are tried in order. The outer `try/except` of the
source only guards code that cannot raise in this model, since every
backend invocation is wrapped by the per-strategy handler. -/
def downloadVideo (_cancelledBefore : Bool) (B : Nat → ExtractRes)
    (cf : Nat → Bool) (quality : String) : Outcome × RunSt :=
  videoLoop B cf (videoStrategiesOf quality) none ⟨0, 0, 0⟩

/-- Tier-1 audio selectors of `download_audio` (lines 810-820). -/
def audioOnlyFormats : List String :=
  ["bestaudio",
   "bestaudio[ext=m4a]/bestaudio[ext=aac]/bestaudio[ext=mp3]/bestaudio",
   "bestaudio[ext=m4a]/bestaudio",
   "bestaudio[ext=aac]/bestaudio",
   "bestaudio[ext=mp3]/bestaudio",
   "bestaudio[ext=opus]/bestaudio",
   "bestaudio[ext=ogg]/bestaudio",
   "bestaudio[protocol*=dash]/bestaudio",
   "bestaudio[protocol*=m3u8]/bestaudio"]

/-- Tier-2 audio selectors of `download_audio` (lines 886-895). -/
def dashAudioFormats : List String :=
  ["bestaudio",
   "bestaudio[protocol*=dash]/bestaudio",
   "bestaudio[protocol*=m3u8]/bestaudio",
   "bestaudio[protocol*=dash][ext=m4a]/bestaudio[protocol*=dash]/bestaudio",
   "bestaudio[protocol*=m3u8][ext=m4a]/bestaudio[protocol*=m3u8]/bestaudio",
   "bestaudio[ext=m4a]/bestaudio",
   "bestaudio[ext=aac]/bestaudio",
   "bestaudio[ext=mp3]/bestaudio"]

/-- One audio tier of `download_audio` (the loops at lines 822-881 and
897-952 are identical apart from their selector lists): check the
cancellation flag before each attempt; a usable download is validated by
`_validate_audio_file` (the file is the only one in the fresh output model)
and returned with `needs_extraction=False`; errors advance to the next
selector; exhaustion yields no outcome and falls through to the next tier. -/
def audioTierLoop (B : Nat → ExtractRes) (cf : Nat → Bool) :
    List String → RunSt → Option Outcome × RunSt
  | [], st => (none, st)
  | _ :: rest, st =>
    if cf st.c then (some cancelledResult, { st with c := st.c + 1 })
    else
      let st1 : RunSt := { n := st.n + 1, dl := st.dl + 1, c := st.c + 1 }
      match B st.n with
      | .raised _ => audioTierLoop B cf rest st1
      | .noInfo => audioTierLoop B cf rest st1
      | .got f _ =>
        match f.filepath with
        | some p =>
          if f.fileOnDisk then
            let vr := validateAudioFile (singleFs p f.content) p
            match vr.1 vr.2 with
            | some c2 =>
              (some { success := true, error := none, file_path := some vr.2,
                      video_path := none, audio_path := none,
                      separate_av := false, needs_extraction := some false,
                      file_size := (c2.length : Int) }, st1)
            | none => audioTierLoop B cf rest st1
          else audioTierLoop B cf rest st1
        | none => audioTierLoop B cf rest st1

/-- Tier 3 of `download_audio` (lines 954-995): a single capped-quality
combined download, flagged `needs_extraction=True` on success; it performs
no cancellation check, and its errors are caught and fall through to the
final failure dict. -/
def audioTier3 (B : Nat → ExtractRes) (st : RunSt) : Option Outcome × RunSt :=
  let st1 : RunSt := { n := st.n + 1, dl := st.dl + 1, c := st.c }
  match B st.n with
  | .raised _ => (none, st1)
  | .noInfo => (none, st1)
  | .got f _ =>
    match f.filepath with
    | some p =>
      if f.fileOnDisk then
        (some { success := true, error := none, file_path := some p,
                video_path := none, audio_path := none, separate_av := false,
                needs_extraction := some true,
                file_size := (f.content.length : Int) }, st1)
      else (none, st1)
    | none => (none, st1)

/-- The terminal failure dict of `download_audio` (lines 998-1007). -/
def audioAllFailedDict : Outcome :=
  { success := false,
    error := some "No audio formats available and could not download video for extraction",
    file_path := none, video_path := none, audio_path := none,
    separate_av := false, needs_extraction := some false, file_size := 0 }

/-- Embedding of `VideoDownloader.download_audio`: the flag set before the call is
discarded by the reset `self.cancelled = False` (line 758); the
availability probe (lines 772-805) consumes backend invocation 0 before
the first cancellation check and feeds only logging (its errors are
caught); then the three tiers run in order and exhaustion returns the
structured failure. -/
def downloadAudio (_cancelledBefore : Bool) (B : Nat → ExtractRes)
    (cf : Nat → Bool) : Outcome × RunSt :=
  match audioTierLoop B cf audioOnlyFormats ⟨1, 0, 0⟩ with
  | (some o, st) => (o, st)
  | (none, st) =>
    match audioTierLoop B cf dashAudioFormats st with
    | (some o, st') => (o, st')
    | (none, st') =>
      match audioTier3 B st' with
      | (some o, st'') => (o, st'')
      | (none, st'') => (audioAllFailedDict, st'')

/-- The codec sentinel tuple of `VideoHandler._analyze_downloaded_file`
(lines 465-466), which unlike the downloader's includes the empty string:
`('none', None, 'null', '')`. -/
def pyNoneish4 (v : PyVal) : Bool := pyNoneish v || v == .str ""

/-- Embedding of `VideoHandler._analyze_downloaded_file`: classify a downloaded file
from its reported codecs with the container-extension fallback. `sz` is
the result of `os.path.getsize` (`.error m` models the raised-and-caught
exception, yielding the failure dict that still carries the file path).
The combined, audio-only and unknown-codec branches of the source build
the same single-path success dict and are collapsed accordingly. -/
def analyzeDownloadedFile (p : String) (vcodec acodec : Option PyVal)
    (sz : Except String Int) : Outcome :=
  match sz with
  | .error m =>
    { success := false, error := some ("Failed to analyze file: " ++ m),
      file_path := some p, video_path := none, audio_path := none,
      separate_av := false, needs_extraction := some false, file_size := 0 }
  | .ok fileSize =>
    let fileExt := strLower (pySplitExt p).2
    let vc := getCodec vcodec
    let ac := getCodec acodec
    let containerWithAudio := decide (fileExt ∈ containerWithAudioExts)
    let hasAudio := !pyNoneish4 ac || containerWithAudio
    let hasVideo := !pyNoneish4 vc || !(decide (fileExt ∈ pureAudioExts))
    if hasVideo && !hasAudio then
      { success := true, error := none, file_path := some p,
        video_path := some p, audio_path := none, separate_av := true,
        needs_extraction := some false, needs_audio_extraction := some true,
        file_size := fileSize }
    else
      { success := true, error := none, file_path := some p,
        video_path := none, audio_path := none, separate_av := false,
        needs_extraction := some false, file_size := fileSize }

set_option maxRecDepth 100000

theorem fsRename_self (fs : FS) (p : String) : fsRename fs p p = fs := by
  funext q
  unfold fsRename
  by_cases h : q = p
  · simp [h]
  · simp [h]

theorem strMk_data (s : String) : String.mk s.data = s := by
  cases s
  rfl

theorem extLen_nameOk {l : List Char} {k : Nat} (h : extLen l = some k) :
    extNameOk (l.drop k) = true := by
  induction l generalizing k with
  | nil => simp [extLen] at h
  | cons c rest ih =>
    unfold extLen at h
    by_cases hc : c = '/'
    · simp [hc] at h
    · by_cases hd : c = '.'
      · by_cases hn : extNameOk rest
        · simp [hc, hd, hn] at h
          subst h
          simp [hn]
        · simp [hc, hd, hn] at h
      · simp only [hc, hd, if_false, Option.map_eq_some'] at h
        obtain ⟨j, hj, hk⟩ := h
        subst hk
        simp [ih hj]

theorem data_append_m4a (b : String) :
    (b ++ ".m4a").data = b.data ++ ['.', 'm', '4', 'a'] := by
  cases b
  rfl

theorem splitExt_append_m4a (b : String) (h : extNameOk b.data.reverse = true) :
    pySplitExt (b ++ ".m4a") = (b, ".m4a") := by
  unfold pySplitExt
  rw [data_append_m4a, List.reverse_append]
  have hrev : (['.', 'm', '4', 'a'] : List Char).reverse = ['a', '4', 'm', '.'] := rfl
  rw [hrev]
  have hlen : extLen (['a', '4', 'm', '.'] ++ b.data.reverse) = some 4 := by
    simp +decide [extLen, h]
  rw [hlen]
  dsimp only
  have htake : (['a', '4', 'm', '.'] ++ b.data.reverse).take 4 = ['a', '4', 'm', '.'] :=
    List.take_left (['a', '4', 'm', '.'] : List Char) b.data.reverse
  have hdrop : (['a', '4', 'm', '.'] ++ b.data.reverse).drop 4 = b.data.reverse :=
    List.drop_left (['a', '4', 'm', '.'] : List Char) b.data.reverse
  rw [htake, hdrop]
  rw [List.reverse_reverse, strMk_data]
  rfl

theorem splitExt_root_nameOk {p : String} (h : (pySplitExt p).2 ≠ "") :
    extNameOk (pySplitExt p).1.data.reverse = true := by
  unfold pySplitExt at h ⊢
  cases hk : extLen p.data.reverse with
  | none => rw [hk] at h; simp at h
  | some k =>
    rw [hk] at h
    dsimp only at h ⊢
    simpa using extLen_nameOk hk

theorem adts_not_ftyp {c : List Nat} (h : hasAdtsSync c = true) :
    hasFtypHeader (c.take 8) = false := by
  unfold hasAdtsSync at h
  match c with
  | [] => simp [List.isPrefixOf] at h
  | [x] => simp [List.isPrefixOf] at h
  | x :: y :: t =>
    simp only [List.isPrefixOf, List.isPrefixOf_nil_left, Bool.and_true, Bool.or_eq_true,
      Bool.and_eq_true, beq_iff_eq] at h
    have hx : x = 255 := by rcases h with ⟨h1, _⟩ | ⟨h1, _⟩ <;> omega
    subst hx
    simp [hasFtypHeader, ftypSig, List.isPrefixOf]

theorem validate_cases (fs : FS) (p : String) :
    validateAudioFile fs p = (fs, p) ∨
    ∃ content, fs p = some content ∧ 1024 ≤ content.length ∧
      hasAdtsSync content = true ∧ (pySplitExt p).2 ≠ "" ∧
      validateAudioFile fs p =
        (fsRename fs p ((pySplitExt p).1 ++ ".m4a"), (pySplitExt p).1 ++ ".m4a") := by
  unfold validateAudioFile
  cases hfp : fs p with
  | none => exact .inl rfl
  | some content =>
    dsimp only
    by_cases hsmall : content.length < 1024
    · simp [hsmall]
    · simp only [hsmall, if_false]
      by_cases hext : strLower (pySplitExt p).2 = ".m4a" ∨ strLower (pySplitExt p).2 = ".mp4"
      · have hextB : (strLower (pySplitExt p).2 = ".m4a" || strLower (pySplitExt p).2 = ".mp4") = true := by
          rcases hext with h | h <;> simp [h]
        rw [if_pos hextB]
        unfold validateM4aContainer
        rw [hfp]
        dsimp only
        by_cases hftyp : hasFtypHeader (content.take 8) = true
        · simp [hftyp]
        · simp only [hftyp, Bool.false_eq_true, if_false]
          unfold repairAudioContainer
          rw [hfp]
          dsimp only
          by_cases hadts : hasAdtsSync content = true
          · refine .inr ⟨content, rfl, by omega, hadts, ?_, ?_⟩
            · intro hempty
              rcases hext with h | h <;> rw [hempty] at h <;> simp [strLower] at h
            · simp [hadts, wrapAacInM4a]
          · simp [hadts]
      · have hextB : (strLower (pySplitExt p).2 = ".m4a" || strLower (pySplitExt p).2 = ".mp4") = false := by
          push_neg at hext
          simp [hext.1, hext.2]
        rw [if_neg (by simp [hextB])]
        exact .inl rfl

theorem validate_after_rename (fs : FS) (p : String) (content : List Nat)
    (hfp : fs p = some content) (hlen : 1024 ≤ content.length)
    (hadts : hasAdtsSync content = true) (hext : (pySplitExt p).2 ≠ "") :
    validateAudioFile (fsRename fs p ((pySplitExt p).1 ++ ".m4a"))
        ((pySplitExt p).1 ++ ".m4a") =
      (fsRename fs p ((pySplitExt p).1 ++ ".m4a"), (pySplitExt p).1 ++ ".m4a") := by
  set rp := (pySplitExt p).1 ++ ".m4a" with hrp
  set fs' := fsRename fs p rp with hfs'
  have hread : fs' rp = some content := by
    rw [hfs']
    unfold fsRename
    simp [hfp]
  have hsplit : pySplitExt rp = ((pySplitExt p).1, ".m4a") :=
    splitExt_append_m4a _ (splitExt_root_nameOk hext)
  unfold validateAudioFile
  rw [hread]
  dsimp only
  have hns : ¬ content.length < 1024 := by omega
  simp only [hns, if_false]
  have hlow : strLower (pySplitExt rp).2 = ".m4a" := by
    rw [hsplit]
    dsimp only
    decide
  rw [if_pos (by simp [hlow])]
  unfold validateM4aContainer
  rw [hread]
  dsimp only
  rw [adts_not_ftyp hadts]
  simp only [Bool.false_eq_true, if_false]
  unfold repairAudioContainer
  rw [hread]
  dsimp only
  rw [hadts]
  simp only [if_true]
  unfold wrapAacInM4a
  rw [hsplit]
  simp [fsRename_self]

/-- C9: the audio validator is idempotent: re-validating the filesystem and
path returned by `validate_audio_file` is a no-op that returns the same
path (and leaves the filesystem unchanged). -/
theorem c9_validate_audio_file_idempotent (fs : FS) (p : String) :
    validateAudioFile (validateAudioFile fs p).1 (validateAudioFile fs p).2 =
      validateAudioFile fs p := by
  rcases validate_cases fs p with h | ⟨content, hfp, hlen, hadts, hext, h⟩
  · rw [h]
    exact h
  · rw [h]
    exact validate_after_rename fs p content hfp hlen hadts hext

/-- A 1KB ADTS/AAC byte stream: sync bytes `0xFF 0xF1` followed by padding. -/
def adtsBytes : List Nat := 255 :: 241 :: List.replicate 1022 0

/-- C10, counterexample: for a 1KB ADTS file named `audio.aac`,
`validate_audio_file` does not rename it to `.m4a` — it returns the `.aac`
path unchanged and creates no `.m4a` file, because only `.m4a`/`.mp4`
extensions enter container validation and repair. -/
theorem c10_counterexample_aac_not_repaired :
    (validateAudioFile (singleFs "audio.aac" adtsBytes) "audio.aac").2 = "audio.aac" ∧
    (validateAudioFile (singleFs "audio.aac" adtsBytes) "audio.aac").1 "audio.m4a" = none ∧
    (validateAudioFile (singleFs "audio.aac" adtsBytes) "audio.aac").1 "audio.aac"
      = some adtsBytes := by
  refine ⟨?_, ?_, ?_⟩ <;> decide

/-- C10 (amended): for an audio file of at least 1KB beginning with
`0xFF 0xF1` and lacking an `ftyp` header, when the extension is `.m4a`
the validator repairs via a rename that is a no-op on path and filesystem
and succeeds; when the extension is `.aac` the validator returns the path
unchanged without entering repair (only `.m4a`/`.mp4` reach the repair
path), and the rename to `.m4a` is performed by `_repair_audio_container`
itself when invoked on the `.aac` file. -/
theorem c10_amended_adts_repair (content : List Nat)
    (hlen : 1024 ≤ content.length)
    (hadts : [255, 241].isPrefixOf content = true) :
    validateAudioFile (singleFs "audio.m4a" content) "audio.m4a" =
      (singleFs "audio.m4a" content, "audio.m4a") ∧
    validateAudioFile (singleFs "audio.aac" content) "audio.aac" =
      (singleFs "audio.aac" content, "audio.aac") ∧
    ((repairAudioContainer (singleFs "audio.aac" content) "audio.aac").2 = "audio.m4a" ∧
      (repairAudioContainer (singleFs "audio.aac" content) "audio.aac").1 "audio.m4a"
        = some content ∧
      (repairAudioContainer (singleFs "audio.aac" content) "audio.aac").1 "audio.aac"
        = none) := by
  have hsync : hasAdtsSync content = true := by simp [hasAdtsSync, hadts]
  have hns : ¬ content.length < 1024 := by omega
  refine ⟨?_, ?_, ?_⟩
  · have hfp : singleFs "audio.m4a" content "audio.m4a" = some content := by
      simp [singleFs]
    have hsp : pySplitExt "audio.m4a" = ("audio", ".m4a") := by decide
    unfold validateAudioFile
    rw [hfp]
    dsimp only
    simp only [hns, if_false]
    rw [if_pos (by rw [hsp]; decide)]
    unfold validateM4aContainer
    rw [hfp]
    dsimp only
    rw [adts_not_ftyp hsync]
    simp only [Bool.false_eq_true, if_false]
    unfold repairAudioContainer
    rw [hfp]
    dsimp only
    rw [hsync]
    simp only [if_true]
    unfold wrapAacInM4a
    rw [hsp]
    dsimp only
    have happ : ("audio" ++ ".m4a" : String) = "audio.m4a" := rfl
    rw [happ, fsRename_self]
  · have hfp : singleFs "audio.aac" content "audio.aac" = some content := by
      simp [singleFs]
    have hsp : pySplitExt "audio.aac" = ("audio", ".aac") := by decide
    unfold validateAudioFile
    rw [hfp]
    dsimp only
    simp only [hns, if_false]
    rw [if_neg (by rw [hsp]; decide)]
  · have hfp : singleFs "audio.aac" content "audio.aac" = some content := by
      simp [singleFs]
    have hsp : pySplitExt "audio.aac" = ("audio", ".aac") := by decide
    unfold repairAudioContainer
    rw [hfp]
    dsimp only
    rw [hsync]
    simp only [if_true]
    unfold wrapAacInM4a
    rw [hsp]
    dsimp only
    have happ : ("audio" ++ ".m4a" : String) = "audio.m4a" := rfl
    rw [happ]
    refine ⟨rfl, ?_, ?_⟩ <;> simp [fsRename, singleFs]

/-- C10, witness: the amended repair behavior evaluated on the concrete 1KB
ADTS byte stream. -/
theorem c10_amended_adts_repair_witness :
    validateAudioFile (singleFs "audio.m4a" adtsBytes) "audio.m4a" =
      (singleFs "audio.m4a" adtsBytes, "audio.m4a") ∧
    validateAudioFile (singleFs "audio.aac" adtsBytes) "audio.aac" =
      (singleFs "audio.aac" adtsBytes, "audio.aac") ∧
    ((repairAudioContainer (singleFs "audio.aac" adtsBytes) "audio.aac").2 = "audio.m4a" ∧
      (repairAudioContainer (singleFs "audio.aac" adtsBytes) "audio.aac").1 "audio.m4a"
        = some adtsBytes ∧
      (repairAudioContainer (singleFs "audio.aac" adtsBytes) "audio.aac").1 "audio.aac"
        = none) :=
  c10_amended_adts_repair adtsBytes (by decide) (by decide)

/-- The audio-only descriptor of the C1 scenario: `vcodec "none"`,
`acodec "aac"`, `ext "m4a"`, `protocol "http_dash_segments"`, with a
given format identifier and no format note. -/
def c1AudioDesc (aid : String) : RawFormat :=
  { format_id := some aid, ext := some "m4a", vcodec := some (.str "none"),
    acodec := some (.str "aac"), protocol := some "http_dash_segments" }

/-- The video-only descriptor of the C1 scenario: `vcodec "avc1"`,
`acodec "none"`, `height 1080`, `ext "mp4"`. -/
def c1VideoDesc (vid : String) : RawFormat :=
  { format_id := some vid, ext := some "mp4", vcodec := some (.str "avc1"),
    acodec := some (.str "none"), height := some (some 1080) }

unseal List.merge List.mergeSort in
/-- C1, counterexample: with audio format id `"140"` (no `"dash"` in note or
id), the normalizer of `VideoDownloader._extract_format_info` does NOT
produce a paired format for the scenario catalog — the DASH-audio test
looks at `format_note`/`format_id`, never at `protocol`, so the audio
descriptor is left unclassified, the video-only descriptor is dropped, and
the output is a single audio-only entry. -/
theorem c1_counterexample_no_pairing :
    extractFormatInfoDownloader [c1AudioDesc "140", c1VideoDesc "137"] =
      [{ format_id := "140", ext := "m4a", resolution := .str "Audio",
         height := 0, quality_label := "Audio Only", filesize := 0,
         vcodec := .str "none", acodec := .str "aac", has_audio := true,
         has_video := false, fps := 0, format_note := "", tbr := 0,
         url := "" }] := by
  decide

unseal List.merge List.mergeSort in
/-- C1 (amended): the scenario produces the paired format only when the
audio descriptor's `format_note` or `format_id` contains `"dash"`
(case-insensitively) — the `http_dash_segments` protocol field is not
consulted. With audio id `"dash-140"` and video id `"137"` the normalizer
produces exactly one paired format with id `"137+dash-140"`, quality label
`"1080p"`, `has_video` and `has_audio` true and `is_dash_paired` set. -/
theorem c1_amended_pairing_requires_dash_id :
    extractFormatInfoDownloader [c1AudioDesc "dash-140", c1VideoDesc "137"] =
      [{ format_id := "137+dash-140", ext := "mp4", resolution := .str "",
         height := 1080, quality_label := "1080p", filesize := 0,
         vcodec := .str "avc1", acodec := .str "aac", has_audio := true,
         has_video := true, fps := 0,
         format_note := "DASH 1080p (Video+Audio)", tbr := 0, url := "",
         video_format_id := some (some "137"),
         audio_format_id := some (some "dash-140"),
         width := some 0, is_dash_paired := some true }] := by
  decide

/-- A downloaded combined file with both codecs reported, used as a benign
backend reply. -/
def combinedFile : DlFile :=
  { filepath := some "/out/v.mp4", fileOnDisk := true,
    vcodec := some (.str "avc1"), acodec := some (.str "aac"),
    content := [1, 2, 3] }

/-- A backend whose every invocation yields the combined file. -/
def alwaysGotB : Nat → ExtractRes := fun _ => .got combinedFile []

/-- A cancellation schedule under which no cancel ever arrives after the
reset performed at the start of the call. -/
def noCancel : Nat → Bool := fun _ => false

/-- C3: when all candidate strategies of `download_video` fail (every
backend invocation raises), the orchestrator performs exactly one download
attempt per candidate — 3 attempts for its 3-strategy list, not 4, not
fewer — and the failure outcome's error string references the message of
the last attempt's error (the download invocation of index 5, after the
probe/download pairs of the three strategies). -/
theorem c3_strategy_exhaustion_exactly_n (b : Bool) (msgs : Nat → String) (q : String) :
    (videoStrategiesOf q).length = 3 ∧
    (downloadVideo b (fun k => .raised (msgs k)) noCancel q).2.dl = 3 ∧
    (downloadVideo b (fun k => .raised (msgs k)) noCancel q).1.success = false ∧
    (downloadVideo b (fun k => .raised (msgs k)) noCancel q).1.error =
      some ("All download strategies failed. Last error: " ++ msgs 5) :=
  ⟨rfl, rfl, rfl, rfl⟩

/-- C4, counterexample: the cancellation flag set before the call is reset
by `self.cancelled = False` at the start of `download_video`, so with the
flag preset and no in-flight cancel the call performs backend invocations
(two: probe and download) and returns a success outcome, not the cancelled
outcome — refuting the claim that a preset flag yields zero backend
invocations and a cancelled outcome. -/
theorem c4_counterexample_preset_flag_ignored :
    (downloadVideo true alwaysGotB noCancel "best").1.success = true ∧
    (downloadVideo true alwaysGotB noCancel "best").1.error = none ∧
    (downloadVideo true alwaysGotB noCancel "best").2.n = 2 ∧
    (downloadVideo true alwaysGotB noCancel "best").2.dl = 1 := by
  refine ⟨?_, ?_, ?_, ?_⟩ <;> decide

/-- C4 (amended): a flag set before the call has no effect because both
operations reset it on entry; cancellation observed at the first
post-reset check yields the distinct cancelled outcome with zero download
attempts — `download_video` with zero backend invocations of any kind,
while `download_audio` still performs its single availability probe
(backend invocation 0), which precedes the first cancellation check. -/
theorem c4_amended_cancel_after_reset (b : Bool) (B : Nat → ExtractRes) (q : String) :
    downloadVideo b B (fun _ => true) q = (cancelDictVideo, ⟨0, 0, 1⟩) ∧
    downloadAudio b B (fun _ => true) = (cancelledResult, ⟨1, 0, 1⟩) :=
  ⟨rfl, rfl⟩

/-- The C6 backend: the availability probe and the 17 tier-1/tier-2
attempts (invocations 0 through 17) raise, and the tier-3 combined
download (invocation 18) succeeds with the given file. -/
def c6Backend (msgs : Nat → String) (f : DlFile) : Nat → ExtractRes :=
  fun k => if k ≤ 17 then .raised (msgs k) else .got f []

/-- C6: when the 9 tier-1 and 8 tier-2 audio selectors all fail and the
tier-3 combined download yields a file on disk, `download_audio` returns a
successful outcome (`success=true`) with `needs_extraction=true` and the
combined-stream file path, after exactly 18 download attempts. -/
theorem c6_all_tiers_fail_needs_extraction (b : Bool) (msgs : Nat → String)
    (f : DlFile) (p : String) (hfp : f.filepath = some p)
    (hdisk : f.fileOnDisk = true) :
    (downloadAudio b (c6Backend msgs f) noCancel).1 =
      { success := true, error := none, file_path := some p,
        video_path := none, audio_path := none, separate_av := false,
        needs_extraction := some true,
        file_size := (f.content.length : Int) } ∧
    (downloadAudio b (c6Backend msgs f) noCancel).2.dl = 18 := by
  constructor <;>
    simp +decide [downloadAudio, audioTierLoop, audioTier3, c6Backend,
      audioOnlyFormats, dashAudioFormats, noCancel, hfp, hdisk]

/-- C6, witness: the extraction-needed outcome evaluated with a concrete
failing backend and the concrete combined file. -/
theorem c6_all_tiers_fail_needs_extraction_witness :
    (downloadAudio true (c6Backend (fun _ => "no formats") combinedFile) noCancel).1 =
      { success := true, error := none, file_path := some "/out/v.mp4",
        video_path := none, audio_path := none, separate_av := false,
        needs_extraction := some true,
        file_size := (combinedFile.content.length : Int) } ∧
    (downloadAudio true (c6Backend (fun _ => "no formats") combinedFile) noCancel).2.dl = 18 :=
  c6_all_tiers_fail_needs_extraction true (fun _ => "no formats") combinedFile
    "/out/v.mp4" rfl rfl

theorem processFormat_flags {f : RawFormat} {e : NormalizedFormat}
    (h : processFormat f = some e) : e.has_video = true ∨ e.has_audio = true := by
  unfold processFormat at h
  split at h
  · exact absurd h (by simp)
  · rename_i hcond
    injection h with h
    subst h
    show (resolveFlags f).1 = true ∨ (resolveFlags f).2 = true
    cases h1 : (resolveFlags f).1 with
    | true => exact .inl rfl
    | false =>
      cases h2 : (resolveFlags f).2 with
      | true => exact .inr rfl
      | false => exact absurd (by simp [h1, h2]) hcond

theorem mem_pairedFormats_has_video {dashAudio : Option RawFormat}
    {videoOnly : List RawFormat} {e : NormalizedFormat}
    (h : e ∈ pairedFormats dashAudio videoOnly) : e.has_video = true := by
  unfold pairedFormats at h
  cases dashAudio with
  | none => simp at h
  | some dash =>
    by_cases hv : videoOnly = []
    · simp [hv] at h
    · simp only [hv, if_false, List.mem_map] at h
      obtain ⟨g, -, rfl⟩ := h
      rfl

theorem mem_preListDownloader {formats : List RawFormat} {e : NormalizedFormat}
    (h : e ∈ preListDownloader formats) : e.has_video = true ∨ e.has_audio = true := by
  unfold preListDownloader at h
  simp only [List.mem_append, List.mem_filterMap] at h
  rcases h with (⟨f, -, hf⟩ | hp) | ⟨f, -, hf⟩
  · exact processFormat_flags hf
  · exact .inl (mem_pairedFormats_has_video hp)
  · exact processFormat_flags hf

/-- C2: every entry produced by the normalizers — both
`FormatProcessor.extract_format_info` and the pairing-aware
`VideoDownloader._extract_format_info` — has `has_video` or `has_audio`
set; a descriptor resolving to neither (after the extension remediation
heuristic) is dropped and never appears in the output. -/
theorem c2_no_flagless_entry (formats : List RawFormat) :
    (∀ e, e ∈ extractFormatInfoProcessor formats →
      e.has_video = true ∨ e.has_audio = true) ∧
    (∀ e, e ∈ extractFormatInfoDownloader formats →
      e.has_video = true ∨ e.has_audio = true) := by
  constructor
  · intro e he
    rw [extractFormatInfoProcessor, List.mem_mergeSort] at he
    obtain ⟨f, -, hf⟩ := List.mem_filterMap.mp he
    exact processFormat_flags hf
  · intro e he
    rw [extractFormatInfoDownloader, List.mem_mergeSort] at he
    exact mem_preListDownloader he

unseal List.merge List.mergeSort in
/-- C2, witness: the invariant evaluated on the concrete two-descriptor
catalog of the DASH scenario. -/
theorem c2_no_flagless_entry_witness :
    ({ format_id := "140", ext := "m4a", resolution := .str "Audio",
       height := 0, quality_label := "Audio Only", filesize := 0,
       vcodec := .str "none", acodec := .str "aac", has_audio := true,
       has_video := false, fps := 0, format_note := "", tbr := 0,
       url := "" } : NormalizedFormat).has_video = true ∨
    ({ format_id := "140", ext := "m4a", resolution := .str "Audio",
       height := 0, quality_label := "Audio Only", filesize := 0,
       vcodec := .str "none", acodec := .str "aac", has_audio := true,
       has_video := false, fps := 0, format_note := "", tbr := 0,
       url := "" } : NormalizedFormat).has_audio = true :=
  (c2_no_flagless_entry [c1AudioDesc "140", c1VideoDesc "137"]).2 _ (by decide)

theorem fmtSortLe_trans (a b c : NormalizedFormat) (h1 : fmtSortLe a b = true)
    (h2 : fmtSortLe b c = true) : fmtSortLe a c = true := by
  simp only [fmtSortLe, decide_eq_true_eq] at h1 h2 ⊢
  omega

theorem fmtSortLe_total (a b : NormalizedFormat) :
    fmtSortLe a b || fmtSortLe b a := by
  simp only [fmtSortLe, Bool.or_eq_true, decide_eq_true_eq]
  omega

theorem fmtSortLe_video {a b : NormalizedFormat} (h : fmtSortLe a b = true)
    (hb : b.has_video = true) : a.has_video = true := by
  cases ha : a.has_video with
  | true => rfl
  | false =>
    simp [fmtSortLe, entryKey, hb, ha] at h

theorem sorted_mergeSort_fmt (pre : List NormalizedFormat) :
    (pre.mergeSort fmtSortLe).Pairwise (fun a b => fmtSortLe a b = true) :=
  List.sorted_mergeSort (fun a b c => fmtSortLe_trans a b c) fmtSortLe_total pre

theorem stable_filter_key (pre : List NormalizedFormat) (k : Nat × Int) :
    (pre.mergeSort fmtSortLe).filter (fun e => decide (entryKey e = k)) =
      pre.filter (fun e => decide (entryKey e = k)) := by
  set pk : NormalizedFormat → Bool := fun e => decide (entryKey e = k) with hpk
  have hall : ∀ e ∈ pre.filter pk, entryKey e = k := by
    intro e he
    have := List.of_mem_filter he
    simpa [hpk] using this
  have hpw : (pre.filter pk).Pairwise (fun a b => fmtSortLe a b) := by
    apply List.pairwise_of_forall_mem_list
    intro a ha b hb
    show fmtSortLe a b = true
    simp [fmtSortLe, hall a ha, hall b hb]
  have hsub2 : List.Sublist (pre.filter pk) (pre.mergeSort fmtSortLe) :=
    List.sublist_mergeSort (fun a b c => fmtSortLe_trans a b c) fmtSortLe_total hpw
      (List.filter_sublist pre)
  have h4 : List.Sublist (pre.filter pk) ((pre.mergeSort fmtSortLe).filter pk) := by
    have hself : (pre.filter pk).filter pk = pre.filter pk :=
      List.filter_eq_self.mpr (fun a ha => List.of_mem_filter ha)
    rw [← hself]
    exact hsub2.filter pk
  have hlen : ((pre.mergeSort fmtSortLe).filter pk).length = (pre.filter pk).length :=
    ((List.mergeSort_perm pre fmtSortLe).filter pk).length_eq
  exact (h4.eq_of_length hlen.symm).symm

/-- C8: both normalizers return a list sorted non-increasingly by the key
pair `(has_video, height)` — in particular every video-bearing entry
precedes every audio-only entry — and the sort is stable: for every key
value, the key-equal entries appear in the same order as in the pre-sort
list built in catalog order. -/
theorem c8_normalizer_sorted_and_stable (formats : List RawFormat) :
    (extractFormatInfoProcessor formats).Pairwise (fun a b => fmtSortLe a b = true) ∧
    (extractFormatInfoDownloader formats).Pairwise (fun a b => fmtSortLe a b = true) ∧
    (extractFormatInfoProcessor formats).Pairwise
      (fun a b => b.has_video = true → a.has_video = true) ∧
    (extractFormatInfoDownloader formats).Pairwise
      (fun a b => b.has_video = true → a.has_video = true) ∧
    (∀ k, (extractFormatInfoProcessor formats).filter (fun e => decide (entryKey e = k)) =
      (preListProcessor formats).filter (fun e => decide (entryKey e = k))) ∧
    (∀ k, (extractFormatInfoDownloader formats).filter (fun e => decide (entryKey e = k)) =
      (preListDownloader formats).filter (fun e => decide (entryKey e = k))) := by
  refine ⟨sorted_mergeSort_fmt _, sorted_mergeSort_fmt _, ?_, ?_, ?_, ?_⟩
  · exact (sorted_mergeSort_fmt _).imp (fun h hb => fmtSortLe_video h hb)
  · exact (sorted_mergeSort_fmt _).imp (fun h hb => fmtSortLe_video h hb)
  · intro k
    exact stable_filter_key (preListProcessor formats) k
  · intro k
    exact stable_filter_key (preListDownloader formats) k

/-- Shape 1 of the outcome invariant: success with a single combined file
path and no separate video/audio paths. -/
def combinedShape (o : Outcome) : Prop :=
  o.success = true ∧ o.separate_av = false ∧ o.file_path.isSome = true ∧
    o.video_path = none ∧ o.audio_path = none

/-- Shape 2: success with both a video path and an audio path and
`separate_av` set. -/
def pairShape (o : Outcome) : Prop :=
  o.success = true ∧ o.separate_av = true ∧ o.video_path.isSome = true ∧
    o.audio_path.isSome = true

/-- Shape 3: failure. -/
def failShape (o : Outcome) : Prop := o.success = false

/-- The three-shape invariant claimed for completed outcomes. -/
def threeShape (o : Outcome) : Prop :=
  combinedShape o ∨ pairShape o ∨ failShape o

/-- The fourth shape actually produced by the handler's classifier: a
video-only success flagged for a supplementary audio fetch, with
`separate_av` set, a video path and no audio path. -/
def videoOnlyShape (o : Outcome) : Prop :=
  o.success = true ∧ o.separate_av = true ∧ o.video_path.isSome = true ∧
    o.audio_path = none ∧ o.needs_audio_extraction = some true

/-- The well-formedness the error-handling claims need: a failure outcome
carries an error string, and the outcome has one of the three shapes. -/
def outcomeWF (o : Outcome) : Prop :=
  (o.success = false → o.error.isSome = true) ∧ threeShape o

theorem sepAudioLoop_wf (B : Nat → ExtractRes) (cf : Nat → Bool) (vp : String)
    (vs : Int) :
    ∀ (sels : List String) (lastErr : Option String) (st : RunSt),
      outcomeWF (sepAudioLoop B cf vp vs sels lastErr st).1 := by
  intro sels
  induction sels with
  | nil =>
    intro lastErr st
    exact ⟨fun _ => rfl, Or.inr (Or.inr rfl)⟩
  | cons s rest ih =>
    intro lastErr st
    unfold sepAudioLoop
    cases hc : cf st.c with
    | true => exact ⟨fun _ => rfl, Or.inr (Or.inr rfl)⟩
    | false =>
      dsimp only
      cases hB : B st.n with
      | raised m => exact ih (some m) _
      | noInfo => exact ih lastErr _
      | got f r =>
        dsimp only
        cases hfp : f.filepath with
        | none => exact ih lastErr _
        | some ap =>
          dsimp only
          cases hd : f.fileOnDisk with
          | false => exact ih lastErr _
          | true =>
            refine ⟨fun h => by simp at h, Or.inr (Or.inl ⟨rfl, rfl, rfl, rfl⟩)⟩

theorem analyzeVideoDownload_wf (B : Nat → ExtractRes) (cf : Nat → Bool)
    (p : String) (f : DlFile) (st : RunSt) :
    outcomeWF (analyzeVideoDownload B cf p f st).1 := by
  unfold analyzeVideoDownload
  dsimp only
  split
  · exact sepAudioLoop_wf B cf p _ sepAudioFormats none st
  · exact ⟨fun h => by simp at h, Or.inl ⟨rfl, rfl, rfl, rfl, rfl⟩⟩

theorem videoLoop_wf (B : Nat → ExtractRes) (cf : Nat → Bool) :
    ∀ (sels : List String) (lastErr : Option String) (st : RunSt),
      outcomeWF (videoLoop B cf sels lastErr st).1 := by
  intro sels
  induction sels with
  | nil =>
    intro lastErr st
    exact ⟨fun _ => rfl, Or.inr (Or.inr rfl)⟩
  | cons s rest ih =>
    intro lastErr st
    unfold videoLoop
    cases hc : cf st.c with
    | true => exact ⟨fun _ => rfl, Or.inr (Or.inr rfl)⟩
    | false =>
      dsimp only
      cases hB : B (st.n + 1) with
      | raised m => exact ih (some m) _
      | noInfo => exact ih lastErr _
      | got f r =>
        dsimp only
        cases hfp : f.filepath with
        | none => exact ih lastErr _
        | some p =>
          dsimp only
          cases hd : f.fileOnDisk with
          | false => exact ih lastErr _
          | true => exact analyzeVideoDownload_wf B cf p f _

theorem audioTierLoop_wf (B : Nat → ExtractRes) (cf : Nat → Bool) :
    ∀ (sels : List String) (st : RunSt) (o : Outcome),
      (audioTierLoop B cf sels st).1 = some o → outcomeWF o := by
  intro sels
  induction sels with
  | nil => intro st o h; simp [audioTierLoop] at h
  | cons s rest ih =>
    intro st o h
    unfold audioTierLoop at h
    cases hc : cf st.c with
    | true =>
      rw [hc] at h
      simp only [if_true] at h
      injection h with h
      subst h
      exact ⟨fun _ => rfl, Or.inr (Or.inr rfl)⟩
    | false =>
      rw [hc] at h
      simp only [Bool.false_eq_true, if_false] at h
      cases hB : B st.n with
      | raised m => rw [hB] at h; exact ih _ o h
      | noInfo => rw [hB] at h; exact ih _ o h
      | got f r =>
        rw [hB] at h
        dsimp only at h
        cases hfp : f.filepath with
        | none => rw [hfp] at h; exact ih _ o h
        | some p =>
          rw [hfp] at h
          dsimp only at h
          cases hd : f.fileOnDisk with
          | false => rw [hd] at h; simp only [Bool.false_eq_true, if_false] at h; exact ih _ o h
          | true =>
            rw [hd] at h
            simp only [if_true] at h
            cases hv : (validateAudioFile (singleFs p f.content) p).1
                (validateAudioFile (singleFs p f.content) p).2 with
            | none => rw [hv] at h; exact ih _ o h
            | some c2 =>
              rw [hv] at h
              dsimp only at h
              injection h with h
              subst h
              exact ⟨fun hfail => by simp at hfail, Or.inl ⟨rfl, rfl, rfl, rfl, rfl⟩⟩

theorem audioTier3_wf (B : Nat → ExtractRes) (st : RunSt) (o : Outcome)
    (h : (audioTier3 B st).1 = some o) : outcomeWF o := by
  unfold audioTier3 at h
  cases hB : B st.n with
  | raised m => rw [hB] at h; simp at h
  | noInfo => rw [hB] at h; simp at h
  | got f r =>
    rw [hB] at h
    dsimp only at h
    cases hfp : f.filepath with
    | none => rw [hfp] at h; simp at h
    | some p =>
      rw [hfp] at h
      dsimp only at h
      cases hd : f.fileOnDisk with
      | false => rw [hd] at h; simp at h
      | true =>
        rw [hd] at h
        simp only [if_true] at h
        injection h with h
        subst h
        exact ⟨fun hfail => by simp at hfail, Or.inl ⟨rfl, rfl, rfl, rfl, rfl⟩⟩

theorem downloadVideo_wf (b : Bool) (B : Nat → ExtractRes) (cf : Nat → Bool)
    (q : String) : outcomeWF (downloadVideo b B cf q).1 :=
  videoLoop_wf B cf (videoStrategiesOf q) none ⟨0, 0, 0⟩

theorem downloadAudio_wf (b : Bool) (B : Nat → ExtractRes) (cf : Nat → Bool) :
    outcomeWF (downloadAudio b B cf).1 := by
  unfold downloadAudio
  cases h1 : audioTierLoop B cf audioOnlyFormats ⟨1, 0, 0⟩ with
  | mk o1 st1 =>
    cases o1 with
    | some o => exact audioTierLoop_wf B cf audioOnlyFormats _ o (by rw [h1])
    | none =>
      dsimp only
      cases h2 : audioTierLoop B cf dashAudioFormats st1 with
      | mk o2 st2 =>
        cases o2 with
        | some o => exact audioTierLoop_wf B cf dashAudioFormats _ o (by rw [h2])
        | none =>
          dsimp only
          cases h3 : audioTier3 B st2 with
          | mk o3 st3 =>
            cases o3 with
            | some o => exact audioTier3_wf B st2 o (by rw [h3])
            | none => exact ⟨fun _ => rfl, Or.inr (Or.inr rfl)⟩

/-- C5: for every quality token, backend behavior (including raising
exceptions at any invocation) and cancellation schedule, the public video
and audio download operations return a structured outcome, and whenever
that outcome has `success=false` it carries an error string. -/
theorem c5_structured_outcomes (b : Bool) (B : Nat → ExtractRes)
    (cf : Nat → Bool) (q : String) :
    ((downloadVideo b B cf q).1.success = false →
      (downloadVideo b B cf q).1.error.isSome = true) ∧
    ((downloadAudio b B cf).1.success = false →
      (downloadAudio b B cf).1.error.isSome = true) :=
  ⟨(downloadVideo_wf b B cf q).1, (downloadAudio_wf b B cf).1⟩

/-- C5, witness: with a backend that raises on every invocation, both
operations fail and the failure outcomes carry error strings. -/
theorem c5_structured_outcomes_witness :
    (downloadVideo true (fun _ => .raised "boom") noCancel "best").1.error.isSome = true ∧
    (downloadAudio true (fun _ => .raised "boom") noCancel).1.error.isSome = true :=
  ⟨(c5_structured_outcomes true (fun _ => .raised "boom") noCancel "best").1 (by decide),
   (c5_structured_outcomes true (fun _ => .raised "boom") noCancel "best").2 (by decide)⟩

/-- C7, counterexample: the handler's classifier
(`VideoHandler._analyze_downloaded_file`) applied to a video-only download
(a `.ts` file with `vcodec "avc1"`, `acodec "none"`) returns a completed
success outcome with `separate_av=true`, a video path and NO audio path —
exactly the shape the claim says never occurs. -/
theorem c7_counterexample_video_only_outcome :
    (analyzeDownloadedFile "/out/v.ts" (some (.str "avc1")) (some (.str "none"))
      (.ok 100)).success = true ∧
    (analyzeDownloadedFile "/out/v.ts" (some (.str "avc1")) (some (.str "none"))
      (.ok 100)).separate_av = true ∧
    (analyzeDownloadedFile "/out/v.ts" (some (.str "avc1")) (some (.str "none"))
      (.ok 100)).video_path = some "/out/v.ts" ∧
    (analyzeDownloadedFile "/out/v.ts" (some (.str "avc1")) (some (.str "none"))
      (.ok 100)).audio_path = none := by
  refine ⟨?_, ?_, ?_, ?_⟩ <;> decide

/-- C7 (amended): the outcomes of the monolithic downloader's video and
audio operations satisfy the three-shape invariant (single combined path,
video+audio pair with `separate_av`, or failure); the handler's classifier
additionally produces a fourth shape — a video-only success with
`separate_av=true`, a video path, no audio path and
`needs_audio_extraction=true` — so classifier outcomes satisfy one of four
shapes, not three. -/
theorem c7_amended_outcome_shapes (b : Bool) (B : Nat → ExtractRes)
    (cf : Nat → Bool) (q : String) (p : String) (vc ac : Option PyVal)
    (sz : Except String Int) :
    threeShape (downloadVideo b B cf q).1 ∧
    threeShape (downloadAudio b B cf).1 ∧
    (threeShape (analyzeDownloadedFile p vc ac sz) ∨
      videoOnlyShape (analyzeDownloadedFile p vc ac sz)) := by
  refine ⟨(downloadVideo_wf b B cf q).2, (downloadAudio_wf b B cf).2, ?_⟩
  unfold analyzeDownloadedFile
  cases sz with
  | error m => exact .inl (Or.inr (Or.inr rfl))
  | ok fileSize =>
    dsimp only
    split
    · exact .inr ⟨rfl, rfl, rfl, rfl, rfl⟩
    · exact .inl (Or.inl ⟨rfl, rfl, rfl, rfl, rfl⟩)
